import Mathlib

/-!
Shallow embedding of the StrivaneQuizBot quiz parser (quiz_handler.py) and of the
poll-registry / scoring engine (main.py), together with theorems settling the
specification claims about them.

Python strings are modelled as List Char (Python str is a sequence of code
points).  Python ints are Int (arbitrary precision); Python floats are modelled
as exact rationals, which is faithful for every claim below since none depends
on rounding.  The backslash-s and backslash-d regex classes and the str.strip,
str.lower whitespace and case sets are modelled at ASCII.  A value of
Option/Except none/error models a raised Python exception.
-/

namespace StrivaneQuiz

/-! ## Python string primitives -/

/-- ASCII whitespace, as matched by the regex class backslash-s and stripped by
str.strip. -/
def pyIsSpace (c : Char) : Bool :=
  c = ' ' || c = '\t' || c = '\n' || c = '\r' || c = '\x0b' || c = '\x0c'

/-- ASCII decimal digit, as matched by the regex class backslash-d. -/
def pyIsDigit (c : Char) : Bool :=
  '0' ≤ c && c ≤ '9'

/-- Model of str.strip with no argument: drop leading and trailing whitespace. -/
def pyStrip (s : List Char) : List Char :=
  ((s.dropWhile pyIsSpace).reverse.dropWhile pyIsSpace).reverse

/-- Model of str.lower at ASCII. -/
def pyLower (c : Char) : Char :=
  if 'A' ≤ c && c ≤ 'Z' then Char.ofNat (c.toNat + 32) else c

/-- Model of str.startswith with a single string argument. -/
def pyStartsWith : List Char → List Char → Bool
  | [], _ => true
  | _ :: _, [] => false
  | p :: ps, c :: cs => p = c && pyStartsWith ps cs

/-- Model of text.replace applied to CRLF and LF in parse_quiz_text: leftmost
non-overlapping replacement. -/
def replaceCRLF : List Char → List Char
  | [] => []
  | '\r' :: '\n' :: t => '\n' :: replaceCRLF t
  | c :: t => c :: replaceCRLF t

/-- Helper for splitting on a single LF. -/
def splitNlAux : List Char → List Char → List (List Char)
  | acc, [] => [acc.reverse]
  | acc, '\n' :: t => acc.reverse :: splitNlAux [] t
  | acc, c :: t => splitNlAux (c :: acc) t

/-- Model of str.split with separator LF. -/
def splitNl (s : List Char) : List (List Char) :=
  splitNlAux [] s

/-- Helper for splitting on a double LF, leftmost non-overlapping. -/
def splitDoubleNlAux : List Char → List Char → List (List Char)
  | acc, [] => [acc.reverse]
  | acc, '\n' :: '\n' :: t => acc.reverse :: splitDoubleNlAux [] t
  | acc, c :: t => splitDoubleNlAux (c :: acc) t

/-- Model of str.split with separator LF LF. -/
def splitDoubleNl (s : List Char) : List (List Char) :=
  splitDoubleNlAux [] s

/-- Helper for splitting on every slash. -/
def splitSlashAux : List Char → List Char → List (List Char)
  | acc, [] => [acc.reverse]
  | acc, '/' :: t => acc.reverse :: splitSlashAux [] t
  | acc, c :: t => splitSlashAux (c :: acc) t

/-- Model of str.split with separator slash, as used by the number parser. -/
def splitSlash (s : List Char) : List (List Char) :=
  splitSlashAux [] s

/-- Model of line.split(colon, maxsplit 1) index 1: everything after the first
colon.  The callers only use it on lines that are known to contain a colon. -/
def afterColon (s : List Char) : List Char :=
  (s.dropWhile (fun c => c != ':')).drop 1

/-! ## Python number conversions -/

/-- Value of a string of decimal digit characters. -/
def digitsToNat (ds : List Char) : Nat :=
  ds.foldl (fun n c => 10 * n + (c.toNat - '0'.toNat)) 0

/-- Model of int applied to a string: strip, optional sign, nonempty digits.
Underscore digit grouping and non-ASCII digits are not modelled.  none models a
raised ValueError. -/
def pyInt (s : List Char) : Option Int :=
  match pyStrip s with
  | '+' :: ds => if ds ≠ [] ∧ ds.all pyIsDigit then some (digitsToNat ds : Int) else none
  | '-' :: ds => if ds ≠ [] ∧ ds.all pyIsDigit then some (-(digitsToNat ds : Int)) else none
  | ds => if ds ≠ [] ∧ ds.all pyIsDigit then some (digitsToNat ds : Int) else none

/-- Optional sign at the front of a numeric literal. -/
def parseSign : List Char → Int × List Char
  | '+' :: t => (1, t)
  | '-' :: t => (-1, t)
  | t => (1, t)

/-- Model of float applied to a string, over exact rationals: strip, optional
sign, decimal digits with at most one point, optional exponent part.  The
words inf and nan, and underscore grouping, are not modelled (no claim uses
them); values are exact where IEEE doubles would round.  none models a raised
ValueError. -/
def pyFloat (s : List Char) : Option ℚ :=
  let t := pyStrip s
  let sg := (parseSign t).1
  let t1 := (parseSign t).2
  let ip := t1.takeWhile pyIsDigit
  let t2 := t1.dropWhile pyIsDigit
  let fr := match t2 with
    | '.' :: r => (r.takeWhile pyIsDigit, r.dropWhile pyIsDigit)
    | r => ([], r)
  let fp := fr.1
  let t3 := fr.2
  if ip = [] ∧ fp = [] then none else
  let mant : ℚ := (sg : ℚ) * ((digitsToNat ip : ℚ) + (digitsToNat fp : ℚ) / (10 : ℚ) ^ fp.length)
  match t3 with
  | [] => some mant
  | 'e' :: r =>
    let esg := (parseSign r).1
    let ed := (parseSign r).2.takeWhile pyIsDigit
    let r2 := (parseSign r).2.dropWhile pyIsDigit
    if ed = [] ∨ r2 ≠ [] then none
    else some (mant * (10 : ℚ) ^ (esg * (digitsToNat ed : Int)))
  | 'E' :: r =>
    let esg := (parseSign r).1
    let ed := (parseSign r).2.takeWhile pyIsDigit
    let r2 := (parseSign r).2.dropWhile pyIsDigit
    if ed = [] ∨ r2 ≠ [] then none
    else some (mant * (10 : ℚ) ^ (esg * (digitsToNat ed : Int)))
  | _ => none

/-- Model of the private number parser of quiz_handler.py: strip; if the string
contains a slash, split on every slash, require exactly two parts, convert both
with float and divide (none when the denominator is zero, modelling
ZeroDivisionError, or when unpacking or conversion fails, modelling
ValueError); otherwise convert with float. -/
def parse_number_expr (s : List Char) : Option ℚ :=
  let e := pyStrip s
  if e.contains '/' then
    match splitSlash e with
    | [a, b] =>
      match pyFloat a, pyFloat b with
      | some x, some y => if y = 0 then none else some (x / y)
      | _, _ => none
    | _ => none
  else pyFloat e

/-! ## The compiled question-block pattern

The pattern of quiz_handler.py is a raw triple-quoted string compiled without
the verbose flag, so the newline at the end of each source line of the pattern
is a literal pattern character.  With the inline flags (multiline and dotall,
the latter letting the dot match LF) the compiled pattern is, in order:

LF, star of whitespace, plus of digits (group num), dot, star of whitespace,
lazy dot-star (group question), LF, LF, then for each letter A B C D: the
letter, dot, star of whitespace, lazy dot-star (the option group), LF, LF,
then three greedy optional groups, each one a literal label (Answer:,
Negative:, Time:), star of whitespace, a captured plus of its character class
and LF, and after each optional group one more literal LF.

The matcher below is a backtracking matcher in continuation-passing style for
exactly this pattern; alternatives are ordered as the Python engine orders
them (greedy pieces try the longest continuation first, lazy pieces the
shortest, optional groups try to match before skipping), and Option.orElse
takes the first success, so the returned match is the one Python returns. -/

/-- Groups captured by one match of the block pattern. -/
structure BlockGroups where
  num : List Char
  question : List Char
  optA : List Char
  optB : List Char
  optC : List Char
  optD : List Char
  answer : Option (List Char)
  negative : Option (List Char)
  time : Option (List Char)
deriving DecidableEq

/-- Match a literal character sequence, then continue. -/
def reLit {α : Type} (cs : List Char) (s : List Char) (k : List Char → Option α) : Option α :=
  if pyStartsWith cs s then k (s.drop cs.length) else none

/-- Greedy star over a character class: the longest continuation is tried
first, mirroring the backtracking priority of the Python engine. -/
def reStarCls {α : Type} (p : Char → Bool) : List Char → (List Char → Option α) → Option α
  | [], k => k []
  | c :: t, k => if p c then reStarCls p t k <|> k (c :: t) else k (c :: t)

/-- Greedy star over a character class with capture accumulator. -/
def reStarClsCap {α : Type} (p : Char → Bool) :
    List Char → List Char → (List Char → List Char → Option α) → Option α
  | acc, [], k => k acc.reverse []
  | acc, c :: t, k =>
    if p c then reStarClsCap p (c :: acc) t k <|> k acc.reverse (c :: t)
    else k acc.reverse (c :: t)

/-- Greedy plus over a character class with capture. -/
def rePlusClsCap {α : Type} (p : Char → Bool) (s : List Char)
    (k : List Char → List Char → Option α) : Option α :=
  match s with
  | [] => none
  | c :: t => if p c then reStarClsCap p [c] t k else none

/-- Lazy dot-star with capture, under the dotall flag (any character, including
LF): the shortest continuation is tried first. -/
def reLazyCap {α : Type} :
    List Char → List Char → (List Char → List Char → Option α) → Option α
  | acc, [], k => k acc.reverse []
  | acc, c :: t, k => k acc.reverse (c :: t) <|> reLazyCap (c :: acc) t k

/-- One greedy optional field group of the pattern: literal label, star of
whitespace, a captured plus of the class p, then LF; when the group cannot
match, it is skipped and the capture is none. -/
def reOptField {α : Type} (label : List Char) (p : Char → Bool) (s : List Char)
    (k : Option (List Char) → List Char → Option α) : Option α :=
  (reLit label s fun s1 =>
    reStarCls pyIsSpace s1 fun s2 =>
      rePlusClsCap p s2 fun ds s3 =>
        reLit ['\n'] s3 fun s4 => k (some ds) s4) <|> k none s

/-- One option line of the pattern: letter, dot, star of whitespace, lazy
dot-star captured, then LF LF (the escaped LF of the pattern plus the literal
LF ending its source line). -/
def reOptionLine {α : Type} (letter : Char) (s : List Char)
    (k : List Char → List Char → Option α) : Option α :=
  reLit [letter, '.'] s fun s1 =>
    reStarCls pyIsSpace s1 fun s2 =>
      reLazyCap [] s2 fun cap s3 =>
        reLit ['\n', '\n'] s3 fun s4 => k cap s4

/-- Character class of the Negative field: sign characters, digits, dot,
slash. -/
def negClass (c : Char) : Bool :=
  c = '-' || c = '+' || c = '.' || c = '/' || pyIsDigit c

/-- Attempt to match the full block pattern at the start of s, returning the
captured groups and the rest of the input after the match. -/
def matchBlock (s : List Char) : Option (BlockGroups × List Char) :=
  reLit ['\n'] s fun s1 =>
  reStarCls pyIsSpace s1 fun s2 =>
  rePlusClsCap pyIsDigit s2 fun num s3 =>
  reLit ['.'] s3 fun s4 =>
  reStarCls pyIsSpace s4 fun s5 =>
  reLazyCap [] s5 fun q s6 =>
  reLit ['\n', '\n'] s6 fun s7 =>
  reOptionLine 'A' s7 fun oa s8 =>
  reOptionLine 'B' s8 fun ob s9 =>
  reOptionLine 'C' s9 fun oc s10 =>
  reOptionLine 'D' s10 fun od s11 =>
  reOptField "Answer:".data pyIsDigit s11 fun ans s12 =>
  reLit ['\n'] s12 fun s13 =>
  reOptField "Negative:".data negClass s13 fun neg s14 =>
  reLit ['\n'] s14 fun s15 =>
  reOptField "Time:".data pyIsDigit s15 fun tm s16 =>
  reLit ['\n'] s16 fun s17 =>
  some (⟨num, q, oa, ob, oc, od, ans, neg, tm⟩, s17)

/-- Model of finditer: scan left to right, taking non-overlapping matches and
resuming after each match, advancing one character where no match starts.  The
fuel only bounds the recursion; fuel equal to the length of the input plus one
is always sufficient because every step consumes at least one character (a
match always consumes its leading LF). -/
def findIter : Nat → List Char → List BlockGroups
  | 0, _ => []
  | fuel + 1, s =>
    match matchBlock s with
    | some (g, rest) => g :: findIter fuel rest
    | none =>
      match s with
      | [] => []
      | _ :: t => findIter fuel t

/-! ## The parser -/

/-- The Question record of quiz_handler.py.  The field correct_option is the
0-based index computed by the parser; time is the Python int of the Time field
or the default. -/
structure Question where
  qid : Int
  text : List Char
  options : List (List Char)
  correct_option : Int
  negative : ℚ
  time : Int
deriving DecidableEq

/-- Build one Question from the groups of a primary-grammar match, following
the loop body of parse_quiz_text.  The error value models the uncaught
exception raised by the number parser on a malformed Negative field: this call
is the only unguarded fallible operation in the loop. -/
def mkQuestion (g : BlockGroups) (default_negative : ℚ) (default_time : Int) :
    Except Unit Question :=
  match (match g.negative with
         | none => some default_negative
         | some ns => parse_number_expr ns) with
  | none => Except.error ()
  | some negv =>
    Except.ok
      { qid := (digitsToNat g.num : Int)
        text := pyStrip g.question
        options := [pyStrip g.optA, pyStrip g.optB, pyStrip g.optC, pyStrip g.optD]
        correct_option :=
          match g.answer with
          | none => 0
          | some ds => (digitsToNat ds : Int) - 1
        negative := negv
        time :=
          match g.time with
          | none => default_time
          | some ts => (digitsToNat ts : Int) }

/-- The primary-grammar loop of parse_quiz_text: build a Question per match in
order; a raised exception aborts the whole call. -/
def buildQuestions (dneg : ℚ) (dtime : Int) : List BlockGroups → Except Unit (List Question)
  | [] => Except.ok []
  | g :: gs =>
    match mkQuestion g dneg dtime with
    | Except.error e => Except.error e
    | Except.ok q =>
      match buildQuestions dneg dtime gs with
      | Except.error e => Except.error e
      | Except.ok qs => Except.ok (q :: qs)

/-- The per-block line list of the fallback parser: split the block on LF,
strip each line, keep the nonempty ones. -/
def fbStripped (b : List Char) : List (List Char) :=
  ((splitNl b).map pyStrip).filter (fun l => !l.isEmpty)

/-- Option-line handling of the fallback parser: when the line starts with the
letter followed by a dot or a closing parenthesis, drop two characters and
strip; otherwise keep the line as is. -/
def fbOption (letter : Char) (line : List Char) : List Char :=
  if pyStartsWith [letter, '.'] line || pyStartsWith [letter, ')'] line
  then pyStrip (line.drop 2) else line

/-- Case-insensitive test for a line carrying the Answer field. -/
def isAnswerLine (l : List Char) : Bool :=
  pyStartsWith "answer:".data (l.map pyLower)

/-- Case-insensitive test for a line carrying the Negative field. -/
def isNegativeLine (l : List Char) : Bool :=
  pyStartsWith "negative:".data (l.map pyLower)

/-- Case-insensitive test for a line carrying the Time field. -/
def isTimeLine (l : List Char) : Bool :=
  pyStartsWith "time:".data (l.map pyLower)

/-- One pass of the field-scanning loop of the fallback parser over one line of
the block tail, updating the running answer, negative and time values; a
failed conversion is caught and leaves the running value unchanged. -/
def scanFieldLine (st : Option Int × Option ℚ × Int) (line : List Char) :
    Option Int × Option ℚ × Int :=
  let ans := st.1
  let neg := st.2.1
  let tv := st.2.2
  let ans1 := if isAnswerLine line then
      match pyInt (pyStrip (afterColon line)) with
      | some n => some (n - 1)
      | none => ans
    else ans
  let neg1 := if isNegativeLine line then
      match parse_number_expr (pyStrip (afterColon line)) with
      | some q => some q
      | none => neg
    else neg
  let tv1 := if isTimeLine line then
      match pyInt (pyStrip (afterColon line)) with
      | some n => n
      | none => tv
    else tv
  (ans1, neg1, tv1)

/-- One block of the fallback parser: a block qualifies when it has at least
five nonempty lines; line one is the question, lines two to five the options,
the remaining lines are scanned for fields. -/
def fbBlock (dneg : ℚ) (dtime : Int) (qnum : Int) (b : List Char) : Option Question :=
  match fbStripped b with
  | l0 :: l1 :: l2 :: l3 :: l4 :: rest =>
    let f := rest.foldl scanFieldLine (none, none, dtime)
    some { qid := qnum
           text := l0
           options := [fbOption 'A' l1, fbOption 'B' l2, fbOption 'C' l3, fbOption 'D' l4]
           correct_option := f.1.getD 0
           negative := f.2.1.getD dneg
           time := f.2.2 }
  | _ => none

/-- The fallback loop of parse_quiz_text: sequential ids are assigned from the
given counter, advanced only on qualifying blocks. -/
def fbParse (dneg : ℚ) (dtime : Int) : Int → List (List Char) → List Question
  | _, [] => []
  | qnum, b :: bs =>
    match fbBlock dneg dtime qnum b with
    | some q => q :: fbParse dneg dtime (qnum + 1) bs
    | none => fbParse dneg dtime qnum bs

/-- Model of parse_quiz_text: normalise line endings, run the primary grammar
over all matches, and only when it yields no question run the fallback grammar
over the blank-line separated blocks.  An error value models an uncaught
exception escaping the call (the source declares defaults of one third and 30
for the two default parameters; callers here always pass them explicitly). -/
def parse_quiz_text (text : String) (default_negative : ℚ) (default_time : Int) :
    Except Unit (List Question) :=
  let t := replaceCRLF text.data
  match buildQuestions default_negative default_time (findIter (t.length + 1) t) with
  | Except.error e => Except.error e
  | Except.ok [] =>
    Except.ok (fbParse default_negative default_time 1
      (((splitDoubleNl t).map pyStrip).filter (fun b => !b.isEmpty)))
  | Except.ok (q :: qs) => Except.ok (q :: qs)

/-! ## Dictionaries

Python dicts are modelled as association lists in insertion order: assignment
replaces the value at the first (and, for states built by the code, only)
occurrence of the key or appends a new binding, and deletion removes the key.
User ids are Nat (the JSON keys of the score file are their decimal strings,
a bijection). -/

/-- First value bound to a key, the dict lookup. -/
def dget {κ β : Type} [DecidableEq κ] : List (κ × β) → κ → Option β
  | [], _ => none
  | (k1, v) :: t, k => if k1 = k then some v else dget t k

/-- Dict assignment: replace in place at the first occurrence, else append. -/
def dset {κ β : Type} [DecidableEq κ] : List (κ × β) → κ → β → List (κ × β)
  | [], k, v => [(k, v)]
  | (k1, v1) :: t, k, v =>
    if k1 = k then (k, v) :: t else (k1, v1) :: dset t k v

/-- Dict deletion: remove the key. -/
def ddel {κ β : Type} [DecidableEq κ] (l : List (κ × β)) (k : κ) : List (κ × β) :=
  l.filter (fun e => decide (e.1 ≠ k))

/-- Keys of an association list, in order. -/
def keysOf {κ β : Type} (l : List (κ × β)) : List κ :=
  l.map Prod.fst

/-! ## State of main.py -/

/-- One entry of ACTIVE_POLLS, as built at registration in run_quiz_job. -/
structure LivePoll where
  chat_id : Int
  message_id : Int
  question_index : Nat
  correct_option : Int
  negative : ℚ
  answers : List (Nat × Nat)
deriving DecidableEq

/-- One entry of the score ledger (scores.json). -/
structure ScoreEntry where
  username : Option String
  attempted : Int
  correct : Int
  wrong : Int
  score : ℚ
deriving DecidableEq

/-- The persisted ledger: user id to score entry. -/
abbrev Ledger := List (Nat × ScoreEntry)

/-- The mutable state of main.py touched by the claims: the in-memory poll
registry ACTIVE_POLLS and the contents of the scores file. -/
structure BotState where
  activePolls : List (String × LivePoll)
  scoresFile : Ledger
deriving DecidableEq

/-- The fresh entry created for a user on first recorded answer. -/
def freshEntry : ScoreEntry :=
  { username := none, attempted := 0, correct := 0, wrong := 0, score := 0 }

/-! ## Score computation (compute_scores_for_poll) -/

/-- Observable effects of the engine, used to state the claims about batching
and containment.  A save event records the full ledger written; attempt events
are emitted whether or not the underlying transport call succeeds, since a
failure there is logged and swallowed. -/
inductive Ev : Type
  | post (i : Nat)
  | sendFailed (i : Nat)
  | sleep (i : Nat) (secs : Int)
  | closeAttempt (i : Nat)
  | save (l : Ledger)
  | deleteAttempt (chat : Int) (mid : Int)
  | forwardAttempt
deriving DecidableEq

/-- The entry mutations of the loop body of compute_scores_for_poll for one
recorded answer of one user: count the attempt, then branch on whether the
selected option equals the correct one, then the best-effort display-name
update (the oracle u models bot.get_chat, none meaning the call raised and the
update was skipped). -/
def updatedEntry (correct : Int) (negative : ℚ) (u : Nat → Option String)
    (e0 : ScoreEntry) (uid sel : Nat) : ScoreEntry :=
  let e1 := { e0 with attempted := e0.attempted + 1 }
  let e2 := if (sel : Int) = correct
    then { e1 with correct := e1.correct + 1, score := e1.score + 1 }
    else { e1 with wrong := e1.wrong + 1, score := e1.score - negative }
  match u uid with
  | some nm => { e2 with username := some nm }
  | none => e2

/-- The loop body of compute_scores_for_poll for one recorded answer: fetch or
create the entry of the user and store its updated value. -/
def applyAnswer (correct : Int) (negative : ℚ) (u : Nat → Option String)
    (scores : Ledger) (ans : Nat × Nat) : Ledger :=
  dset scores ans.1
    (updatedEntry correct negative u ((dget scores ans.1).getD freshEntry) ans.1 ans.2)

/-- Model of compute_scores_for_poll.  An absent poll id returns at once.  The
ledger is loaded (a failed load is caught and yields the empty ledger), every
recorded answer is folded in, and the full ledger is saved once; a failed save
raises out of the function (the error value), in which case neither the file
nor the registry entry has been updated, since the deletion of the registry
entry happens after the save. -/
def compute_scores_for_poll (loadFail saveFail : Bool) (u : Nat → Option String)
    (st : BotState) (pid : String) : Except (BotState × List Ev) (BotState × List Ev) :=
  match dget st.activePolls pid with
  | none => Except.ok (st, [])
  | some info =>
    let scores0 := if loadFail then [] else st.scoresFile
    let scores1 := info.answers.foldl (applyAnswer info.correct_option info.negative u) scores0
    if saveFail then Except.error (st, [])
    else Except.ok
      ({ st with scoresFile := scores1, activePolls := ddel st.activePolls pid },
       [Ev.save scores1])

/-! ## Answer recording (handle_poll_answer) -/

/-- Model of handle_poll_answer: an empty option list returns at once;
otherwise the first option id is taken and, when the poll id is registered,
assigned to the user in the answers dict of that poll (overwriting any earlier
answer); an unregistered poll id changes nothing. -/
def handle_poll_answer (st : BotState) (pid : String) (uid : Nat)
    (optionIds : List Nat) : BotState :=
  match optionIds with
  | [] => st
  | sel :: _ =>
    match dget st.activePolls pid with
    | some info =>
      let info1 := { info with answers := dset info.answers uid sel }
      { st with activePolls := dset st.activePolls pid info1 }
    | none => st

/-! ## Poll registration and the quiz job (run_quiz_job) -/

/-- The registration step of run_quiz_job: a plain dict assignment into
ACTIVE_POLLS, with no presence check. -/
def registerPoll (st : BotState) (pid : String) (info : LivePoll) : BotState :=
  { st with activePolls := dset st.activePolls pid info }

/-- Environment of one quiz job: which transport and persistence calls fail
(by question index), and the platform-assigned identifiers.  Failures of the
message-delete and forward calls are not parameters because they are logged
and swallowed with no effect on state or on the emitted attempt events. -/
structure Env where
  chatId : Int
  sendFails : Nat → Bool
  loadFails : Nat → Bool
  saveFails : Nat → Bool
  pollIdOf : Nat → String
  msgIdOf : Nat → Int
  username : Nat → Option String

/-- The per-question loop of run_quiz_job: post the poll (a failed post is
logged and the question skipped), register the live poll, wait out the
duration, request closure (failure logged), then reduce.  An exception raised
by the reduce step, that is a failed ledger save, propagates: the loop stops
and the flag in the result is true. -/
def runQuizLoop (env : Env) :
    BotState → List Question → Nat → List (Int × Int) →
    BotState × List Ev × List (Int × Int) × Bool
  | st, [], _, posted => (st, [], posted, false)
  | st, q :: rest, idx, posted =>
    if env.sendFails idx then
      let r := runQuizLoop env st rest (idx + 1) posted
      (r.1, Ev.sendFailed idx :: r.2.1, r.2.2.1, r.2.2.2)
    else
      let pid := env.pollIdOf idx
      let mid := env.msgIdOf idx
      let posted1 := posted ++ [(env.chatId, mid)]
      let st1 := registerPoll st pid
        { chat_id := env.chatId, message_id := mid, question_index := idx,
          correct_option := q.correct_option, negative := q.negative, answers := [] }
      let head := [Ev.post idx, Ev.sleep idx q.time, Ev.closeAttempt idx]
      match compute_scores_for_poll (env.loadFails idx) (env.saveFails idx)
          env.username st1 pid with
      | Except.ok (st2, evs2) =>
        let r := runQuizLoop env st2 rest (idx + 1) posted1
        (r.1, head ++ evs2 ++ r.2.1, r.2.2.1, r.2.2.2)
      | Except.error (st2, evs2) => (st2, head ++ evs2, posted1, true)

/-- Result of one quiz job: final state, emitted events, and whether an
exception unwound out of run_quiz_job into the scheduler wrapper (which logs
it and gives up on the job). -/
structure JobResult where
  state : BotState
  trace : List Ev
  aborted : Bool
deriving DecidableEq

/-- Model of run_quiz_job: run the question loop; when no exception unwound,
delete every posted message (best effort) and forward the source document to
the storage group (best effort); when the loop raised, none of the cleanup
runs. -/
def run_quiz_job (env : Env) (st : BotState) (qs : List Question) : JobResult :=
  let r := runQuizLoop env st qs 0 []
  if r.2.2.2 then
    { state := r.1, trace := r.2.1, aborted := true }
  else
    { state := r.1
      trace := r.2.1 ++ r.2.2.1.map (fun cm => Ev.deleteAttempt cm.1 cm.2) ++ [Ev.forwardAttempt]
      aborted := false }

/-- A sequence of reduce calls in the happy path (load and save both succeed),
as quantified over by the ledger invariant claim. -/
def runReduces (u : Nat → Option String) (st : BotState) (ps : List String) : BotState :=
  ps.foldl
    (fun s p =>
      match compute_scores_for_poll false false u s p with
      | Except.ok r => r.1
      | Except.error r => r.1)
    st

/-- The per-entry bookkeeping invariant of the ledger. -/
def LedgerInv (l : Ledger) : Prop :=
  ∀ e ∈ l, e.2.attempted = e.2.correct + e.2.wrong

instance : DecidablePred LedgerInv := fun l =>
  inferInstanceAs (Decidable (∀ e ∈ l, e.2.attempted = e.2.correct + e.2.wrong))

instance {α β : Type} [DecidableEq α] [DecidableEq β] : DecidableEq (Except α β) :=
  fun a b =>
    match a, b with
    | Except.ok x, Except.ok y =>
      if h : x = y then isTrue (by rw [h]) else isFalse (fun e => h (by cases e; rfl))
    | Except.error x, Except.error y =>
      if h : x = y then isTrue (by rw [h]) else isFalse (fun e => h (by cases e; rfl))
    | Except.ok _, Except.error _ => isFalse (fun e => Except.noConfusion e)
    | Except.error _, Except.ok _ => isFalse (fun e => Except.noConfusion e)

/-! ## Concrete instances used by witnesses and counterexamples -/

/-- Display-name oracle under which every lookup fails (the update is skipped). -/
def uNone : Nat → Option String :=
  fun _ => none

/-- A registered live poll with one recorded answer, for the C4 witness. -/
def pollC4 : LivePoll :=
  { chat_id := 77, message_id := 100, question_index := 0,
    correct_option := 1, negative := 1/2, answers := [(7, 1)] }

/-- State with pollC4 registered and an empty ledger. -/
def stC4 : BotState :=
  { activePolls := [("p", pollC4)], scoresFile := [] }

/-- The ledger entry produced by reducing pollC4. -/
def entryC4 : ScoreEntry :=
  { username := none, attempted := 1, correct := 1, wrong := 0, score := 1 }

/-- The state after reducing pollC4. -/
def stC4r : BotState :=
  { activePolls := [], scoresFile := [(7, entryC4)] }

/-- A registered live poll for the C5 witness. -/
def pollC5 : LivePoll :=
  { chat_id := 1, message_id := 2, question_index := 0,
    correct_option := 1, negative := 1/3, answers := [(7, 1), (9, 0)] }

/-- State for the C5 witness: one registered poll, one prior ledger entry
satisfying the bookkeeping invariant. -/
def stC5 : BotState :=
  { activePolls := [("p", pollC5)],
    scoresFile := [(9, { username := none, attempted := 2, correct := 1, wrong := 1, score := 1/2 })] }

/-- A prior ledger entry for the C6 witness. -/
def entryC6old : ScoreEntry :=
  { username := some "al", attempted := 3, correct := 2, wrong := 1, score := 7/4 }

/-- A registered live poll with two recorded answers for the C6 witness. -/
def pollC6 : LivePoll :=
  { chat_id := 1, message_id := 2, question_index := 0,
    correct_option := 2, negative := 1/4, answers := [(5, 2), (6, 1)] }

/-- State with pollC6 registered and user 5 already in the ledger. -/
def stC6 : BotState :=
  { activePolls := [("q6", pollC6)], scoresFile := [(5, entryC6old)] }

/-- The ledger produced by reducing pollC6 from stC6. -/
def ledgerC6r : Ledger :=
  [(5, { username := some "al", attempted := 4, correct := 3, wrong := 1, score := 11/4 }),
   (6, { username := none, attempted := 1, correct := 0, wrong := 1, score := -(1/4) })]

/-- The state after reducing pollC6 from stC6. -/
def stC6r : BotState :=
  { activePolls := [], scoresFile := ledgerC6r }

/-- A registered live poll with one prior answer of user 3, for the C7 witness
(the new answer overwrites it). -/
def pollC7 : LivePoll :=
  { chat_id := 1, message_id := 2, question_index := 0,
    correct_option := 0, negative := 1/3, answers := [(3, 0)] }

/-- State with pollC7 registered. -/
def stC7 : BotState :=
  { activePolls := [("p7", pollC7)], scoresFile := [] }

/-- A live poll holding an accumulated answer, for the C8 counterexample. -/
def oldPollC8 : LivePoll :=
  { chat_id := 1, message_id := 2, question_index := 0,
    correct_option := 0, negative := 1/3, answers := [(7, 2)] }

/-- State in which the poll id of oldPollC8 is already registered. -/
def stC8 : BotState :=
  { activePolls := [("p", oldPollC8)], scoresFile := [] }

/-- The fresh registration record that a second register for the same poll id
would store, discarding the accumulated answers. -/
def newPollC8 : LivePoll :=
  { chat_id := 77, message_id := 100, question_index := 1,
    correct_option := 2, negative := 1/2, answers := [] }

/-- Two questions for the C2 counterexample job. -/
def qC2a : Question :=
  { qid := 1, text := "Q1".data, options := ["a".data, "b".data, "c".data, "d".data],
    correct_option := 0, negative := 1/2, time := 5 }

/-- Second question of the C2 counterexample job. -/
def qC2b : Question :=
  { qid := 2, text := "Q2".data, options := ["a".data, "b".data, "c".data, "d".data],
    correct_option := 1, negative := 1/2, time := 5 }

/-- Environment for the C2 counterexample: every transport call succeeds, but
the ledger save during the reduce of question 0 fails. -/
def envC2 : Env :=
  { chatId := 77, sendFails := fun _ => false, loadFails := fun _ => false,
    saveFails := fun i => decide (i = 0),
    pollIdOf := fun i => toString i, msgIdOf := fun i => (100 + i : Int),
    username := fun _ => none }

/-- Environment for the C2 amended witness: nothing fails. -/
def envOk : Env :=
  { chatId := 77, sendFails := fun _ => false, loadFails := fun _ => false,
    saveFails := fun _ => false,
    pollIdOf := fun i => toString i, msgIdOf := fun i => (100 + i : Int),
    username := fun _ => none }

/-- The block groups of a primary-grammar match carrying an Answer field with
value 3, for the C9 witness. -/
def gC9 : BlockGroups :=
  { num := "1".data, question := "Q".data,
    optA := "a".data, optB := "b".data, optC := "c".data, optD := "d".data,
    answer := some "3".data, negative := none, time := none }

/-- A fallback block with an Answer field with value 3, for the C9 witness. -/
def bC9 : List Char :=
  "Q\nw\nx\ny\nz\nAnswer: 3".data

/-- The document of the C1 counterexample: matched by the primary grammar with
a Negative field whose denominator is zero. -/
def docC1 : String :=
  "\n1. Q\n\nA. a\n\nB. b\n\nC. c\n\nD. d\n\n\nNegative: 1/0\n\n\n"

/-- The document of the C3 counterexample: matched by the primary grammar with
Answer 0, Negative -1 and Time 0, all outside the declared bounds. -/
def docC3 : String :=
  "\n1. Q\n\nA. a\n\nB. b\n\nC. c\n\nD. d\n\nAnswer: 0\n\nNegative: -1\n\nTime: 0\n\n"

/-- The single Question produced by parsing docC3. -/
def qC3 : Question :=
  { qid := 1, text := "Q".data, options := ["a".data, "b".data, "c".data, "d".data],
    correct_option := -1, negative := -1, time := 0 }

/-- The Question built from gC9 under the primary grammar. -/
def qC9p : Question :=
  { qid := 1, text := "Q".data, options := ["a".data, "b".data, "c".data, "d".data],
    correct_option := 2, negative := 1/3, time := 30 }

/-- The Question built from bC9 under the fallback grammar. -/
def qC9f : Question :=
  { qid := 1, text := "Q".data, options := ["w".data, "x".data, "y".data, "z".data],
    correct_option := 2, negative := 1/3, time := 30 }

/-- The empty engine state. -/
def stEmptyW : BotState :=
  { activePolls := [], scoresFile := [] }

/-- The job result of running the C2 counterexample: question 0 is posted,
waited out and closed, then the failing save aborts the job with the live poll
still registered, question 1 never posted and no cleanup performed. -/
def jrC2 : JobResult :=
  { state :=
      { activePolls := [("0",
          { chat_id := 77, message_id := 100, question_index := 0,
            correct_option := 0, negative := 1/2, answers := [] })],
        scoresFile := [] },
    trace := [Ev.post 0, Ev.sleep 0 5, Ev.closeAttempt 0],
    aborted := true }

/-! ## Dictionary lemmas -/

theorem dget_dset_self {κ β : Type} [DecidableEq κ] (l : List (κ × β)) (k : κ) (v : β) :
    dget (dset l k v) k = some v := by
  induction l with
  | nil => simp [dset, dget]
  | cons h t ih =>
    obtain ⟨k1, v1⟩ := h
    by_cases hk : k1 = k
    · simp [dset, hk, dget]
    · simp [dset, hk, dget, ih]

theorem dget_dset_ne {κ β : Type} [DecidableEq κ] (l : List (κ × β)) (k k2 : κ) (v : β)
    (h : k2 ≠ k) : dget (dset l k v) k2 = dget l k2 := by
  have hne : ¬ k = k2 := fun e => h e.symm
  induction l with
  | nil => simp [dset, dget, hne]
  | cons hd t ih =>
    obtain ⟨k1, v1⟩ := hd
    by_cases hk : k1 = k
    · subst hk
      simp [dset, dget, hne]
    · simp [dset, hk, dget, ih]

theorem dget_ddel_self {κ β : Type} [DecidableEq κ] (l : List (κ × β)) (k : κ) :
    dget (ddel l k) k = none := by
  induction l with
  | nil => simp [ddel, dget]
  | cons hd t ih =>
    obtain ⟨k1, v1⟩ := hd
    by_cases hk : k1 = k
    · simpa [ddel, hk] using ih
    · simpa [ddel, hk, dget] using ih

theorem dget_ddel_ne {κ β : Type} [DecidableEq κ] (l : List (κ × β)) (k k2 : κ)
    (h : k2 ≠ k) : dget (ddel l k) k2 = dget l k2 := by
  have hne : ¬ k = k2 := fun e => h e.symm
  induction l with
  | nil => simp [ddel]
  | cons hd t ih =>
    obtain ⟨k1, v1⟩ := hd
    by_cases hk : k1 = k
    · subst hk
      simpa [ddel, dget, hne] using ih
    · by_cases hk2 : k1 = k2
      · subst hk2
        simp [ddel, dget, h]
      · simpa [ddel, hk, dget, hk2] using ih

theorem mem_dset {κ β : Type} [DecidableEq κ] {l : List (κ × β)} {k : κ} {v : β} {e : κ × β}
    (h : e ∈ dset l k v) : e = (k, v) ∨ e ∈ l := by
  induction l with
  | nil => simpa [dset] using h
  | cons hd t ih =>
    obtain ⟨k1, v1⟩ := hd
    by_cases hk : k1 = k
    · rcases (by simpa [dset, hk] using h : e = (k, v) ∨ e ∈ t) with h1 | h1
      · exact Or.inl h1
      · exact Or.inr (List.mem_cons_of_mem _ h1)
    · rcases (by simpa [dset, hk] using h : e = (k1, v1) ∨ e ∈ dset t k v) with h1 | h1
      · exact Or.inr (by simp [h1])
      · rcases ih h1 with h2 | h2
        · exact Or.inl h2
        · exact Or.inr (List.mem_cons_of_mem _ h2)

theorem dget_mem {κ β : Type} [DecidableEq κ] {l : List (κ × β)} {k : κ} {v : β}
    (h : dget l k = some v) : (k, v) ∈ l := by
  induction l with
  | nil => simp [dget] at h
  | cons hd t ih =>
    obtain ⟨k1, v1⟩ := hd
    by_cases hk : k1 = k
    · subst hk
      simp [dget] at h
      simp [h]
    · exact List.mem_cons_of_mem _ (ih (by simpa [dget, hk] using h))

theorem notmem_of_dget_none {κ β : Type} [DecidableEq κ] {l : List (κ × β)} {k : κ}
    (h : dget l k = none) : k ∉ keysOf l := by
  induction l with
  | nil => simp [keysOf]
  | cons hd t ih =>
    obtain ⟨k1, v1⟩ := hd
    by_cases hk : k1 = k
    · simp [dget, hk] at h
    · have h1 : dget t k = none := by simpa [dget, hk] using h
      intro hmem
      rcases (by simpa [keysOf] using hmem : k = k1 ∨ k ∈ keysOf t) with e | e
      · exact hk e.symm
      · exact ih h1 e

theorem dget_some_split {κ β : Type} [DecidableEq κ] {l : List (κ × β)} {k : κ} {v : β}
    (hnd : (keysOf l).Nodup) (h : dget l k = some v) :
    ∃ xs ys, l = xs ++ (k, v) :: ys ∧ k ∉ keysOf xs ∧ k ∉ keysOf ys := by
  induction l with
  | nil => simp [dget] at h
  | cons hd t ih =>
    obtain ⟨k1, v1⟩ := hd
    have hnd1 : k1 ∉ keysOf t ∧ (keysOf t).Nodup := by
      simpa [keysOf, List.nodup_cons] using hnd
    by_cases hk : k1 = k
    · subst hk
      have hv : v1 = v := by simpa [dget] using h
      subst hv
      exact ⟨[], t, by simp, by simp [keysOf], hnd1.1⟩
    · obtain ⟨xs, ys, he, hxs, hys⟩ := ih hnd1.2 (by simpa [dget, hk] using h)
      refine ⟨(k1, v1) :: xs, ys, by simp [he], ?_, hys⟩
      intro hmem
      rcases (by simpa [keysOf] using hmem : k = k1 ∨ k ∈ keysOf xs) with e | e
      · exact hk e.symm
      · exact hxs e

/-! ## Lemmas about the scoring fold -/

theorem updatedEntry_attempted (c : Int) (n : ℚ) (u : Nat → Option String)
    (e0 : ScoreEntry) (uid sel : Nat) :
    (updatedEntry c n u e0 uid sel).attempted = e0.attempted + 1 := by
  unfold updatedEntry
  cases u uid <;> by_cases h : (sel : Int) = c <;> simp [h]

theorem updatedEntry_of_eq (c : Int) (n : ℚ) (u : Nat → Option String)
    (e0 : ScoreEntry) (uid sel : Nat) (h : (sel : Int) = c) :
    (updatedEntry c n u e0 uid sel).correct = e0.correct + 1 ∧
    (updatedEntry c n u e0 uid sel).wrong = e0.wrong ∧
    (updatedEntry c n u e0 uid sel).score = e0.score + 1 := by
  unfold updatedEntry
  cases u uid <;> simp [h]

theorem updatedEntry_of_ne (c : Int) (n : ℚ) (u : Nat → Option String)
    (e0 : ScoreEntry) (uid sel : Nat) (h : ¬ (sel : Int) = c) :
    (updatedEntry c n u e0 uid sel).wrong = e0.wrong + 1 ∧
    (updatedEntry c n u e0 uid sel).correct = e0.correct ∧
    (updatedEntry c n u e0 uid sel).score = e0.score - n := by
  unfold updatedEntry
  cases u uid <;> simp [h]

theorem updatedEntry_inv (c : Int) (n : ℚ) (u : Nat → Option String)
    (e0 : ScoreEntry) (uid sel : Nat) (h : e0.attempted = e0.correct + e0.wrong) :
    (updatedEntry c n u e0 uid sel).attempted
      = (updatedEntry c n u e0 uid sel).correct + (updatedEntry c n u e0 uid sel).wrong := by
  unfold updatedEntry
  cases u uid <;> by_cases hc : (sel : Int) = c <;> simp [hc, h] <;> ring

theorem applyAnswer_inv (c : Int) (n : ℚ) (u : Nat → Option String)
    (l : Ledger) (pr : Nat × Nat) (h : LedgerInv l) :
    LedgerInv (applyAnswer c n u l pr) := by
  intro e he
  rcases mem_dset (by simpa [applyAnswer] using he) with he1 | he1
  · have h2 : e.2 = updatedEntry c n u ((dget l pr.1).getD freshEntry) pr.1 pr.2 := by
      rw [he1]
    rw [h2]
    apply updatedEntry_inv
    cases hd : dget l pr.1 with
    | none => simp [freshEntry]
    | some v => simpa [hd] using h (pr.1, v) (dget_mem hd)
  · exact h e he1

theorem foldl_applyAnswer_inv (c : Int) (n : ℚ) (u : Nat → Option String)
    (prs : List (Nat × Nat)) (l : Ledger) (h : LedgerInv l) :
    LedgerInv (prs.foldl (applyAnswer c n u) l) := by
  induction prs generalizing l with
  | nil => exact h
  | cons pr t ih => exact ih _ (applyAnswer_inv _ _ _ _ _ h)

theorem foldl_applyAnswer_notmem (c : Int) (n : ℚ) (u : Nat → Option String)
    (prs : List (Nat × Nat)) (l : Ledger) (k : Nat) (h : k ∉ keysOf prs) :
    dget (prs.foldl (applyAnswer c n u) l) k = dget l k := by
  induction prs generalizing l with
  | nil => rfl
  | cons pr t ih =>
    have hk : k ≠ pr.1 := by
      intro e
      exact h (by simp [keysOf, e])
    have ht : k ∉ keysOf t := by
      intro e
      exact h (by simp [keysOf]; exact Or.inr (by simpa [keysOf] using e))
    calc dget ((pr :: t).foldl (applyAnswer c n u) l) k
        = dget (t.foldl (applyAnswer c n u) (applyAnswer c n u l pr)) k := by
          rw [List.foldl_cons]
      _ = dget (applyAnswer c n u l pr) k := ih _ ht
      _ = dget l k := by
          unfold applyAnswer
          exact dget_dset_ne _ _ _ _ hk

theorem dget_applyAnswer_self (c : Int) (n : ℚ) (u : Nat → Option String)
    (l : Ledger) (k sel : Nat) :
    dget (applyAnswer c n u l (k, sel)) k
      = some (updatedEntry c n u ((dget l k).getD freshEntry) k sel) := by
  unfold applyAnswer
  exact dget_dset_self _ _ _

theorem foldl_applyAnswer_present (c : Int) (n : ℚ) (u : Nat → Option String)
    (xs ys : List (Nat × Nat)) (k sel : Nat) (l : Ledger)
    (hxs : k ∉ keysOf xs) (hys : k ∉ keysOf ys) :
    dget ((xs ++ (k, sel) :: ys).foldl (applyAnswer c n u) l) k
      = some (updatedEntry c n u ((dget l k).getD freshEntry) k sel) := by
  rw [List.foldl_append, List.foldl_cons,
    foldl_applyAnswer_notmem _ _ _ _ _ _ hys,
    dget_applyAnswer_self, foldl_applyAnswer_notmem _ _ _ _ _ _ hxs]

/-- With a successful save, compute_scores_for_poll never raises. -/
theorem compute_ok_of_save_ok (lf : Bool) (u : Nat → Option String)
    (st : BotState) (pid : String) :
    ∃ r, compute_scores_for_poll lf false u st pid = Except.ok r := by
  cases hreg : dget st.activePolls pid with
  | none => exact ⟨(st, []), by simp [compute_scores_for_poll, hreg]⟩
  | some info =>
    exact ⟨({ st with
        scoresFile := info.answers.foldl (applyAnswer info.correct_option info.negative u)
          (if lf = true then [] else st.scoresFile),
        activePolls := ddel st.activePolls pid },
      [Ev.save (info.answers.foldl (applyAnswer info.correct_option info.negative u)
          (if lf = true then [] else st.scoresFile))]),
      by simp [compute_scores_for_poll, hreg]⟩

/-! ## Claim C4 -/

/-- Claim C4 (confirmed): calling reduce twice in a row on the same pollId
with no intervening register mutates the ledger only on the first call: after
any successful reduce the pollId is no longer registered, a second reduce
returns the state unchanged and performs no save, and a reduce on a pollId
with no registered LivePoll leaves the ledger and the registry completely
unchanged and performs no save. -/
theorem c4_reduce_idempotent (u : Nat → Option String) (st st1 : BotState)
    (pid : String) (evs : List Ev)
    (h : compute_scores_for_poll false false u st pid = Except.ok (st1, evs)) :
    compute_scores_for_poll false false u st1 pid = Except.ok (st1, []) ∧
    dget st1.activePolls pid = none ∧
    (dget st.activePolls pid = none → st1 = st ∧ evs = []) := by
  cases hreg : dget st.activePolls pid with
  | none =>
    have h1 : st = st1 ∧ [] = evs := by
      have he : compute_scores_for_poll false false u st pid = Except.ok (st, []) := by
        simp [compute_scores_for_poll, hreg]
      rw [he] at h
      simpa using h
    obtain ⟨h1, h2⟩ := h1
    subst h1
    subst h2
    exact ⟨by simp [compute_scores_for_poll, hreg], hreg, fun _ => ⟨rfl, rfl⟩⟩
  | some info =>
    have he : compute_scores_for_poll false false u st pid
        = Except.ok
          ({ st with
              scoresFile :=
                info.answers.foldl (applyAnswer info.correct_option info.negative u) st.scoresFile,
              activePolls := ddel st.activePolls pid },
            [Ev.save (info.answers.foldl (applyAnswer info.correct_option info.negative u) st.scoresFile)]) := by
      simp [compute_scores_for_poll, hreg]
    rw [he] at h
    have h1 := (by simpa using h :
      ({ st with
          scoresFile :=
            info.answers.foldl (applyAnswer info.correct_option info.negative u) st.scoresFile,
          activePolls := ddel st.activePolls pid } : BotState) = st1 ∧
        [Ev.save (info.answers.foldl (applyAnswer info.correct_option info.negative u) st.scoresFile)] = evs)
    obtain ⟨h1, h2⟩ := h1
    have hnone : dget st1.activePolls pid = none := by
      rw [← h1]
      exact dget_ddel_self _ _
    exact ⟨by simp [compute_scores_for_poll, hnone], hnone,
      fun habs => Option.noConfusion habs⟩

/-- Witness for C4 at a concrete registered poll. -/
theorem c4_witness :
    compute_scores_for_poll false false uNone stC4 "p"
      = Except.ok (stC4r, [Ev.save [(7, entryC4)]]) ∧
    compute_scores_for_poll false false uNone stC4r "p" = Except.ok (stC4r, []) :=
  ⟨by with_unfolding_all decide,
    (c4_reduce_idempotent uNone stC4 stC4r "p" [Ev.save [(7, entryC4)]]
      (by with_unfolding_all decide)).1⟩

/-! ## Claim C5 -/

/-- Claim C5 (confirmed): the bookkeeping invariant attempted equal to correct
plus wrong holds for every ScoreEntry of the ledger after any sequence of
reduce calls, starting from any ledger satisfying the invariant (the empty
ledger does). -/
theorem c5_ledger_invariant (u : Nat → Option String) (st : BotState) (ps : List String)
    (hinv : LedgerInv st.scoresFile) :
    LedgerInv (runReduces u st ps).scoresFile := by
  induction ps generalizing st with
  | nil => exact hinv
  | cons p t ih =>
    have hstep : LedgerInv ((match compute_scores_for_poll false false u st p with
        | Except.ok r => r.1
        | Except.error r => r.1) : BotState).scoresFile := by
      cases hreg : dget st.activePolls p with
      | none => simpa [compute_scores_for_poll, hreg] using hinv
      | some info =>
        simp only [compute_scores_for_poll, hreg, Bool.false_eq_true, if_false, reduceIte]
        exact foldl_applyAnswer_inv _ _ _ _ _ hinv
    exact ih _ hstep

/-- Witness for C5 at a concrete state and call sequence. -/
theorem c5_witness :
    LedgerInv stC5.scoresFile ∧ LedgerInv (runReduces uNone stC5 ["p", "q"]).scoresFile :=
  ⟨by decide, c5_ledger_invariant uNone stC5 ["p", "q"] (by decide)⟩

/-! ## Claim C6 -/

/-- Claim C6 (confirmed): when reduce processes a registered poll, then for
each recorded pair of user and selected option it fetches or creates the
ScoreEntry of that user, increments attempted by exactly one, and on a match
with the correct option increments correct and adds one to the score while
otherwise incrementing wrong and subtracting the negative marking factor;
users not present in the answers map keep their ledger value unchanged, and
exactly one save of the full final ledger is performed. -/
theorem c6_reduce_scoring (u : Nat → Option String) (st : BotState) (pid : String)
    (info : LivePoll) (st1 : BotState) (evs : List Ev)
    (hreg : dget st.activePolls pid = some info)
    (hnd : (keysOf info.answers).Nodup)
    (h : compute_scores_for_poll false false u st pid = Except.ok (st1, evs)) :
    (∀ uid sel, dget info.answers uid = some sel →
      ∀ e0, (dget st.scoresFile uid).getD freshEntry = e0 →
        ∃ e1, dget st1.scoresFile uid = some e1 ∧
          e1.attempted = e0.attempted + 1 ∧
          (((sel : Int) = info.correct_option) →
            e1.correct = e0.correct + 1 ∧ e1.wrong = e0.wrong ∧ e1.score = e0.score + 1) ∧
          ((¬ (sel : Int) = info.correct_option) →
            e1.wrong = e0.wrong + 1 ∧ e1.correct = e0.correct ∧
              e1.score = e0.score - info.negative)) ∧
    (∀ uid, dget info.answers uid = none →
      dget st1.scoresFile uid = dget st.scoresFile uid) ∧
    evs = [Ev.save st1.scoresFile] := by
  have he : compute_scores_for_poll false false u st pid
      = Except.ok
        ({ st with
            scoresFile :=
              info.answers.foldl (applyAnswer info.correct_option info.negative u) st.scoresFile,
            activePolls := ddel st.activePolls pid },
          [Ev.save (info.answers.foldl (applyAnswer info.correct_option info.negative u) st.scoresFile)]) := by
    simp [compute_scores_for_poll, hreg]
  rw [he] at h
  have h1 := (by simpa using h :
    ({ st with
        scoresFile :=
          info.answers.foldl (applyAnswer info.correct_option info.negative u) st.scoresFile,
        activePolls := ddel st.activePolls pid } : BotState) = st1 ∧
      [Ev.save (info.answers.foldl (applyAnswer info.correct_option info.negative u) st.scoresFile)] = evs)
  obtain ⟨h1, h2⟩ := h1
  have hfile : st1.scoresFile
      = info.answers.foldl (applyAnswer info.correct_option info.negative u) st.scoresFile := by
    rw [← h1]
  refine ⟨?_, ?_, ?_⟩
  · intro uid sel hmem e0 he0
    obtain ⟨xs, ys, hsplit, hxs, hys⟩ := dget_some_split hnd hmem
    refine ⟨updatedEntry info.correct_option info.negative u e0 uid sel, ?_, ?_, ?_, ?_⟩
    · rw [hfile, hsplit, foldl_applyAnswer_present _ _ _ _ _ _ _ _ hxs hys, he0]
    · exact updatedEntry_attempted _ _ _ _ _ _
    · intro hc
      exact updatedEntry_of_eq _ _ _ _ _ _ hc
    · intro hc
      exact updatedEntry_of_ne _ _ _ _ _ _ hc
  · intro uid hnone
    rw [hfile]
    exact foldl_applyAnswer_notmem _ _ _ _ _ _ (notmem_of_dget_none hnone)
  · rw [← h2, hfile]

/-- Witness for C6 at a concrete registered poll with two answers. -/
theorem c6_witness :
    ∃ e1, dget stC6r.scoresFile 5 = some e1 ∧
      e1.attempted = entryC6old.attempted + 1 ∧ e1.correct = entryC6old.correct + 1 := by
  have h := c6_reduce_scoring uNone stC6 "q6" pollC6 stC6r [Ev.save ledgerC6r]
    (by with_unfolding_all decide) (by decide) (by with_unfolding_all decide)
  obtain ⟨e1, h1, h2, h3, _⟩ := h.1 5 2 (by with_unfolding_all decide) entryC6old
    (by with_unfolding_all decide)
  exact ⟨e1, h1, h2, (h3 (by decide)).1⟩

/-! ## Claim C7 -/

/-- Claim C7 (confirmed): recording an answer for a pollId with a registered
LivePoll sets or overwrites the answer of that user to the selected option
(last write wins, other users unchanged); with a pollId absent from the
registry the state is completely unchanged; and in every case the ledger is
untouched. -/
theorem c7_record_answer (st : BotState) (pid : String) (uid : Nat) (optionIds : List Nat) :
    (∀ sel rest info, optionIds = sel :: rest →
      dget st.activePolls pid = some info →
      dget (handle_poll_answer st pid uid optionIds).activePolls pid
          = some ({ info with answers := dset info.answers uid sel }) ∧
      dget (dset info.answers uid sel) uid = some sel ∧
      (∀ u2, u2 ≠ uid → dget (dset info.answers uid sel) u2 = dget info.answers u2)) ∧
    (dget st.activePolls pid = none → handle_poll_answer st pid uid optionIds = st) ∧
    (handle_poll_answer st pid uid optionIds).scoresFile = st.scoresFile := by
  cases optionIds with
  | nil =>
    exact ⟨fun sel rest info he _ => List.noConfusion he, fun _ => rfl, rfl⟩
  | cons sel0 rest0 =>
    cases hreg : dget st.activePolls pid with
    | none =>
      refine ⟨fun sel rest info he hr => ?_, fun _ => ?_, ?_⟩
      · exact Option.noConfusion hr
      · simp [handle_poll_answer, hreg]
      · simp [handle_poll_answer, hreg]
    | some info0 =>
      refine ⟨fun sel rest info he hr => ?_, fun habs => Option.noConfusion habs, ?_⟩
      · injection he with hsel hrest
        subst hsel
        subst hrest
        injection hr with hinfo
        subst hinfo
        refine ⟨?_, dget_dset_self _ _ _, fun u2 hu2 => dget_dset_ne _ _ _ _ hu2⟩
        simp only [handle_poll_answer, hreg]
        exact dget_dset_self _ _ _
      · simp [handle_poll_answer, hreg]

/-- Witness for C7 at a concrete registered poll where the new answer
overwrites a previous one by the same user. -/
theorem c7_witness :
    dget (handle_poll_answer stC7 "p7" 3 [2]).activePolls "p7"
      = some ({ pollC7 with answers := dset pollC7.answers 3 2 }) ∧
    dget (dset pollC7.answers 3 2) 3 = some 2 ∧
    (handle_poll_answer stC7 "p7" 3 [2]).scoresFile = stC7.scoresFile := by
  have h := c7_record_answer stC7 "p7" 3 [2]
  obtain ⟨h1, h2, _⟩ := h.1 2 [] pollC7 rfl (by with_unfolding_all decide)
  exact ⟨h1, h2, h.2.2⟩

/-! ## Claim C8 -/

/-- Counterexample to claim C8: registering a pollId that is already present
is not a no-op: the existing LivePoll, including its accumulated answers map,
is overwritten by the fresh record. -/
theorem c8_counterexample :
    dget stC8.activePolls "p" = some oldPollC8 ∧
    oldPollC8.answers = [(7, 2)] ∧
    dget (registerPoll stC8 "p" newPollC8).activePolls "p" = some newPollC8 ∧
    newPollC8.answers = [] ∧
    registerPoll stC8 "p" newPollC8 ≠ stC8 := by
  with_unfolding_all decide

/-- Claim C8 (amended): register with a pollId that is already present in the
registry unconditionally overwrites the existing LivePoll with the fresh
record (discarding its accumulated answers map, and logging nothing); entries
under other pollIds and the ledger are unchanged. -/
theorem c8_amended (st : BotState) (pid : String) (info : LivePoll) :
    dget (registerPoll st pid info).activePolls pid = some info ∧
    (∀ q, q ≠ pid → dget (registerPoll st pid info).activePolls q = dget st.activePolls q) ∧
    (registerPoll st pid info).scoresFile = st.scoresFile :=
  ⟨dget_dset_self _ _ _, fun _ hq => dget_dset_ne _ _ _ _ hq, rfl⟩

/-- Witness for the amended C8 at the concrete overwrite instance. -/
theorem c8_amended_witness :
    dget (registerPoll stC8 "p" newPollC8).activePolls "p" = some newPollC8 ∧
    dget (registerPoll stC8 "p" newPollC8).activePolls "q" = dget stC8.activePolls "q" :=
  ⟨(c8_amended stC8 "p" newPollC8).1,
    (c8_amended stC8 "p" newPollC8).2.1 "q" (by decide)⟩

/-! ## Claim C10 -/

/-- Claim C10 (confirmed): a poll-answer event with an empty option list (a
vote retraction) leaves the state completely unchanged, so a previously
recorded answer of that user remains in the answers map and a later reduce
scores it exactly as it would have without the retraction. -/
theorem c10_empty_retraction (st : BotState) (pid : String) (uid : Nat) :
    handle_poll_answer st pid uid [] = st ∧
    (∀ lf u p, compute_scores_for_poll lf false u (handle_poll_answer st pid uid []) p
      = compute_scores_for_poll lf false u st p) :=
  ⟨rfl, fun _ _ _ => rfl⟩

/-! ## Parser lemmas -/

theorem mkQuestion_ok (g : BlockGroups) (dn : ℚ) (dt : Int)
    (h : ∀ ns, g.negative = some ns → (parse_number_expr ns).isSome = true) :
    ∃ q, mkQuestion g dn dt = Except.ok q := by
  cases hm : ((match g.negative with
      | none => some dn
      | some ns => parse_number_expr ns) : Option ℚ) with
  | some v => exact ⟨_, by unfold mkQuestion; rw [hm]⟩
  | none =>
    exfalso
    cases hn : g.negative with
    | none =>
      rw [hn] at hm
      exact Option.noConfusion hm
    | some ns =>
      rw [hn] at hm
      have hb := h ns hn
      rw [(by exact hm : parse_number_expr ns = none)] at hb
      exact Bool.noConfusion hb

theorem buildQuestions_ok (dn : ℚ) (dt : Int) (gs : List BlockGroups)
    (h : ∀ g ∈ gs, ∀ ns, g.negative = some ns → (parse_number_expr ns).isSome = true) :
    ∃ qs, buildQuestions dn dt gs = Except.ok qs := by
  induction gs with
  | nil => exact ⟨[], rfl⟩
  | cons g t ih =>
    obtain ⟨q, hq⟩ := mkQuestion_ok g dn dt (h g (by simp))
    obtain ⟨qs, hqs⟩ := ih (fun g1 hg1 ns hns => h g1 (by simp [hg1]) ns hns)
    exact ⟨q :: qs, by simp [buildQuestions, hq, hqs]⟩

theorem mkQuestion_options (g : BlockGroups) (dn : ℚ) (dt : Int) (q : Question)
    (h : mkQuestion g dn dt = Except.ok q) : q.options.length = 4 := by
  unfold mkQuestion at h
  split at h
  · exact Except.noConfusion h
  · injection h with h1
    subst h1
    rfl

theorem buildQuestions_mem (dn : ℚ) (dt : Int) (gs : List BlockGroups)
    (qs : List Question) (q : Question)
    (h : buildQuestions dn dt gs = Except.ok qs) (hm : q ∈ qs) :
    ∃ g, mkQuestion g dn dt = Except.ok q := by
  induction gs generalizing qs with
  | nil =>
    injection h with h1
    rw [← h1] at hm
    exact absurd hm (List.not_mem_nil q)
  | cons g t ih =>
    revert h
    unfold buildQuestions
    cases hq : mkQuestion g dn dt with
    | error e => intro h; exact Except.noConfusion h
    | ok q1 =>
      cases hb : buildQuestions dn dt t with
      | error e => intro h; exact Except.noConfusion h
      | ok qs1 =>
        intro h
        injection h with h1
        rw [← h1] at hm
        rcases List.mem_cons.mp hm with h2 | h2
        · exact ⟨g, by rw [hq, h2]⟩
        · exact ih qs1 hb h2

theorem fbBlock_options (dn : ℚ) (dt : Int) (qn : Int) (b : List Char) (q : Question)
    (h : fbBlock dn dt qn b = some q) : q.options.length = 4 := by
  unfold fbBlock at h
  split at h
  · injection h with h1
    subst h1
    rfl
  · exact Option.noConfusion h

theorem fbParse_mem (dn : ℚ) (dt : Int) (n : Int) (bs : List (List Char)) (q : Question)
    (h : q ∈ fbParse dn dt n bs) : ∃ qn b, fbBlock dn dt qn b = some q := by
  induction bs generalizing n with
  | nil => exact absurd h (by simp [fbParse])
  | cons b t ih =>
    revert h
    unfold fbParse
    cases hfb : fbBlock dn dt n b with
    | some q1 =>
      intro h
      rcases List.mem_cons.mp h with h1 | h1
      · exact ⟨n, b, by rw [hfb, h1]⟩
      · exact ih _ h1
    | none => intro h; exact ih _ h

theorem scanFieldLine_ans_no (s : Option Int × Option ℚ × Int) (line : List Char)
    (h : isAnswerLine line = false) : (scanFieldLine s line).1 = s.1 := by
  simp [scanFieldLine, h]

theorem scanFieldLine_ans_yes (s : Option Int × Option ℚ × Int) (line : List Char)
    (n : Int) (h : isAnswerLine line = true)
    (hp : pyInt (pyStrip (afterColon line)) = some n) :
    (scanFieldLine s line).1 = some (n - 1) := by
  simp [scanFieldLine, h, hp]

theorem foldl_scan_ans_const (r : List (List Char))
    (h : ∀ l ∈ r, isAnswerLine l = false) :
    ∀ s, (r.foldl scanFieldLine s).1 = s.1 := by
  induction r with
  | nil => intro s; rfl
  | cons l t ih =>
    intro s
    rw [List.foldl_cons, ih (fun l1 h1 => h l1 (by simp [h1]))]
    exact scanFieldLine_ans_no _ _ (h l (by simp))

/-! ## Claim C1 -/

/-- Counterexample to claim C1: a document matched by the primary grammar
whose Negative field is the grammar-accepted string one-slash-zero makes
parse_quiz_text raise (ZeroDivisionError out of the unguarded number parser)
instead of returning a sequence. -/
theorem c1_counterexample :
    parse_quiz_text docC1 (1/3) 30 = Except.error () := by
  with_unfolding_all decide

/-- Claim C1 (amended): parse_quiz_text terminates and returns an ordered
sequence of Questions, empty on unparsable input, whenever every block matched
by the primary grammar either has no Negative field or has one accepted by the
number parser; a matched Negative field that the number parser rejects (zero
denominator, more than one slash, malformed numeral) raises out of the call
instead. -/
theorem c1_amended (text : String) (dn : ℚ) (dt : Int)
    (h : ∀ g ∈ findIter ((replaceCRLF text.data).length + 1) (replaceCRLF text.data),
      ∀ ns, g.negative = some ns → (parse_number_expr ns).isSome = true) :
    ∃ qs, parse_quiz_text text dn dt = Except.ok qs := by
  obtain ⟨qs, hq⟩ := buildQuestions_ok dn dt _ h
  cases qs with
  | nil =>
    refine ⟨fbParse dn dt 1
      (((splitDoubleNl (replaceCRLF text.data)).map pyStrip).filter
        (fun b => !b.isEmpty)), ?_⟩
    simp only [parse_quiz_text]
    rw [hq]
  | cons q1 t1 =>
    refine ⟨q1 :: t1, ?_⟩
    simp only [parse_quiz_text]
    rw [hq]

/-- Witness for the amended C1: the empty document has no primary-grammar
match, so the hypothesis holds vacuously and parsing returns a sequence. -/
theorem c1_amended_witness : ∃ qs, parse_quiz_text "" (1/3) 30 = Except.ok qs :=
  c1_amended "" (1/3) 30 (by
    intro g hg
    rw [show findIter ((replaceCRLF "".data).length + 1) (replaceCRLF "".data)
        = ([] : List BlockGroups) from rfl] at hg
    exact absurd hg (List.not_mem_nil g))

/-! ## Claim C3 -/

/-- Counterexample to claim C3: with defaults inside the declared bounds, a
document matched by the primary grammar with Answer 0, Negative -1 and Time 0
yields a Question violating all three declared bounds (correctOptionIndex -1,
negativeMarkingFactor -1, durationSeconds 0); only the four-option shape is
guaranteed. -/
theorem c3_counterexample :
    parse_quiz_text docC3 (1/3) 30 = Except.ok [qC3] ∧
    (0 : ℚ) ≤ 1/3 ∧ (0 : Int) < 30 ∧
    qC3.correct_option = -1 ∧ qC3.negative = -1 ∧ qC3.time = 0 ∧
    ¬ (0 ≤ qC3.correct_option ∧ qC3.correct_option ≤ 3) ∧
    ¬ ((0 : ℚ) ≤ qC3.negative) ∧ ¬ ((0 : Int) < qC3.time) := by
  with_unfolding_all decide

/-- Claim C3 (amended): every Question returned by parse_quiz_text, under
either grammar, has exactly 4 options; the parser does not validate the other
declared bounds, which the document can violate. -/
theorem c3_amended (text : String) (dn : ℚ) (dt : Int) (qs : List Question)
    (h : parse_quiz_text text dn dt = Except.ok qs) :
    ∀ q ∈ qs, q.options.length = 4 := by
  intro q hq
  cases hb : buildQuestions dn dt
      (findIter ((replaceCRLF text.data).length + 1) (replaceCRLF text.data)) with
  | error e =>
    rw [show parse_quiz_text text dn dt
        = (match buildQuestions dn dt
            (findIter ((replaceCRLF text.data).length + 1) (replaceCRLF text.data)) with
          | Except.error e => Except.error e
          | Except.ok [] =>
            Except.ok (fbParse dn dt 1
              (((splitDoubleNl (replaceCRLF text.data)).map pyStrip).filter
                (fun b => !b.isEmpty)))
          | Except.ok (q :: qs) => Except.ok (q :: qs)) from rfl, hb] at h
    exact Except.noConfusion h
  | ok qs0 =>
    rw [show parse_quiz_text text dn dt
        = (match buildQuestions dn dt
            (findIter ((replaceCRLF text.data).length + 1) (replaceCRLF text.data)) with
          | Except.error e => Except.error e
          | Except.ok [] =>
            Except.ok (fbParse dn dt 1
              (((splitDoubleNl (replaceCRLF text.data)).map pyStrip).filter
                (fun b => !b.isEmpty)))
          | Except.ok (q :: qs) => Except.ok (q :: qs)) from rfl, hb] at h
    cases qs0 with
    | nil =>
      injection h with h1
      rw [← h1] at hq
      obtain ⟨qn, b, hfb⟩ := fbParse_mem dn dt 1 _ q hq
      exact fbBlock_options dn dt qn b q hfb
    | cons q1 t1 =>
      injection h with h1
      rw [← h1] at hq
      obtain ⟨g, hg⟩ := buildQuestions_mem dn dt _ _ q hb hq
      exact mkQuestion_options g dn dt q hg

/-- Witness for the amended C3 at the concrete parse of docC3. -/
theorem c3_amended_witness :
    parse_quiz_text docC3 (1/3) 30 = Except.ok [qC3] ∧ qC3.options.length = 4 := by
  have h : parse_quiz_text docC3 (1/3) 30 = Except.ok [qC3] := by
    with_unfolding_all decide
  exact ⟨h, c3_amended docC3 (1/3) 30 [qC3] h qC3 (List.mem_singleton.mpr rfl)⟩

/-! ## Claim C9 -/

/-- Claim C9 (confirmed): under the primary grammar a block with no Answer
field yields correctOptionIndex 0 and a block whose Answer digits have value n
in 1 to 4 yields n - 1; under the fallback grammar a qualifying block whose
tail has no answer line yields 0 and one whose effective (last) answer line
parses to n in 1 to 4 yields n - 1. -/
theorem c9_answer_indexing :
    (∀ g dn dt q, mkQuestion g dn dt = Except.ok q →
      (g.answer = none → q.correct_option = 0) ∧
      (∀ ds n, g.answer = some ds → (digitsToNat ds : Int) = n →
        1 ≤ n → n ≤ 4 → q.correct_option = n - 1)) ∧
    (∀ dn dt qn b q lq la lb lc ld rest,
      fbBlock dn dt qn b = some q →
      fbStripped b = lq :: la :: lb :: lc :: ld :: rest →
      ((∀ l ∈ rest, isAnswerLine l = false) → q.correct_option = 0) ∧
      (∀ xs l ys n, rest = xs ++ l :: ys → isAnswerLine l = true →
        pyInt (pyStrip (afterColon l)) = some n → 1 ≤ n → n ≤ 4 →
        (∀ l1 ∈ ys, isAnswerLine l1 = false) →
        q.correct_option = n - 1)) := by
  constructor
  · intro g dn dt q h
    unfold mkQuestion at h
    split at h
    · exact Except.noConfusion h
    · injection h with h1
      constructor
      · intro ha
        rw [← h1]
        simp [ha]
      · intro ds n ha hn h1le h4le
        rw [← h1]
        simp [ha, hn]
  · intro dn dt qn b q lq la lb lc ld rest h hs
    unfold fbBlock at h
    rw [hs] at h
    injection h with h1
    constructor
    · intro hnone
      rw [← h1]
      show (rest.foldl scanFieldLine (none, none, dt)).1.getD 0 = 0
      rw [foldl_scan_ans_const rest hnone]
      rfl
    · intro xs l ys n hrest hline hp h1le h4le hys
      rw [← h1]
      show (rest.foldl scanFieldLine (none, none, dt)).1.getD 0 = n - 1
      rw [hrest, List.foldl_append, List.foldl_cons, foldl_scan_ans_const ys hys,
        scanFieldLine_ans_yes _ _ _ hline hp]
      rfl

/-- Witness for C9 with Answer value 3 under both grammars. -/
theorem c9_witness :
    mkQuestion gC9 (1/3) 30 = Except.ok qC9p ∧ qC9p.correct_option = 2 ∧
    fbBlock (1/3) 30 1 bC9 = some qC9f ∧ qC9f.correct_option = 2 := by
  have hp : mkQuestion gC9 (1/3) 30 = Except.ok qC9p := by
    with_unfolding_all decide
  have hf : fbBlock (1/3) 30 1 bC9 = some qC9f := by
    with_unfolding_all decide
  have h1 := (c9_answer_indexing.1 gC9 (1/3) 30 qC9p hp).2 "3".data 3
    (by decide) (by decide) (by decide) (by decide)
  have h2 := (c9_answer_indexing.2 (1/3) 30 1 bC9 qC9f "Q".data "w".data "x".data
      "y".data "z".data ["Answer: 3".data] hf (by with_unfolding_all decide)).2
    [] "Answer: 3".data [] 3 rfl (by decide) (by decide) (by decide) (by decide)
    (by simp)
  exact ⟨hp, h1.trans (by decide), hf, h2.trans (by decide)⟩

/-! ## Claim C2 -/

/-- Counterexample to claim C2: in a two-question job where only the ledger
save during the reduce of question 0 fails, the exception unwinds out of the
loop: question 1 is never posted, nothing is reduced or saved, no message
deletion is attempted and the job is never archived. -/
theorem c2_counterexample :
    run_quiz_job envC2 stEmptyW [qC2a, qC2b] = jrC2 ∧
    jrC2.aborted = true ∧
    Ev.post 1 ∉ jrC2.trace ∧
    Ev.forwardAttempt ∉ jrC2.trace ∧
    (∀ c m, Ev.deleteAttempt c m ∉ jrC2.trace) ∧
    (∀ l, Ev.save l ∉ jrC2.trace) := by
  refine ⟨by with_unfolding_all decide, rfl, by decide, by decide, ?_, ?_⟩
  · intro c m
    simp [jrC2]
  · intro l
    simp [jrC2]

theorem runQuizLoop_no_abort (env : Env) (h : ∀ i, env.saveFails i = false)
    (qs : List Question) :
    ∀ st idx posted, (runQuizLoop env st qs idx posted).2.2.2 = false := by
  induction qs with
  | nil => intro st idx posted; rfl
  | cons q t ih =>
    intro st idx posted
    by_cases hs : env.sendFails idx
    · simp only [runQuizLoop, hs, if_true]
      exact ih _ _ _
    · obtain ⟨⟨st2, evs2⟩, hr⟩ := compute_ok_of_save_ok (env.loadFails idx) env.username
        (registerPoll st (env.pollIdOf idx)
          { chat_id := env.chatId, message_id := env.msgIdOf idx, question_index := idx,
            correct_option := q.correct_option, negative := q.negative, answers := [] })
        (env.pollIdOf idx)
      simp only [runQuizLoop, hs, if_false, Bool.false_eq_true, h idx, hr]
      exact ih _ _ _

/-- Claim C2 (amended): failures of the transport calls (posting, closing,
deleting, forwarding) and of the ledger read are contained and the job always
reaches its cleanup phase; but a ledger write failure inside reduce is not
contained: it unwinds out of run_quiz_job, so the remaining questions are not
posted and the end-of-job message deletion and archiving are skipped (the
exception is caught and logged only by the scheduler wrapper). -/
theorem c2_amended :
    (∀ env st qs, (∀ i, env.saveFails i = false) →
      (run_quiz_job env st qs).aborted = false ∧
      Ev.forwardAttempt ∈ (run_quiz_job env st qs).trace) ∧
    (∀ env st q rest, env.sendFails 0 = false → env.saveFails 0 = true →
      (run_quiz_job env st (q :: rest)).aborted = true ∧
      (run_quiz_job env st (q :: rest)).trace
        = [Ev.post 0, Ev.sleep 0 q.time, Ev.closeAttempt 0] ∧
      Ev.forwardAttempt ∉ (run_quiz_job env st (q :: rest)).trace) := by
  constructor
  · intro env st qs hsf
    have hab := runQuizLoop_no_abort env hsf qs st 0 []
    constructor
    · simp only [run_quiz_job, hab, Bool.false_eq_true, if_false]
    · simp only [run_quiz_job, hab, Bool.false_eq_true, if_false]
      simp
  · intro env st q rest hsend hsave
    have h0 : run_quiz_job env st (q :: rest)
        = { state := { st with
                activePolls := dset st.activePolls (env.pollIdOf 0)
                  { chat_id := env.chatId, message_id := env.msgIdOf 0,
                    question_index := 0, correct_option := q.correct_option,
                    negative := q.negative, answers := [] } },
            trace := [Ev.post 0, Ev.sleep 0 q.time, Ev.closeAttempt 0],
            aborted := true } := by
      simp [run_quiz_job, runQuizLoop, hsend, hsave, compute_scores_for_poll,
        registerPoll, dget_dset_self]
    refine ⟨by rw [h0], by rw [h0], by rw [h0]; simp⟩

/-- Witness for the amended C2 at concrete jobs: a failure-free job finishes
unaborted, and the failing-save job aborts. -/
theorem c2_amended_witness :
    (run_quiz_job envOk stEmptyW [qC2a]).aborted = false ∧
    (run_quiz_job envC2 stEmptyW (qC2a :: [qC2b])).aborted = true :=
  ⟨(c2_amended.1 envOk stEmptyW [qC2a] (fun _ => rfl)).1,
    (c2_amended.2 envC2 stEmptyW qC2a [qC2b] rfl rfl).1⟩

end StrivaneQuiz
